import Mathlib

/-!
Verification of the NotebookLM-to-Zotero metadata enrichment core.

We give a shallow embedding of the pure parts of `src/popup/enrichment.js` and
`src/popup/metadata-extractor.js` (similarity scorer, identifier extraction,
filename parsing, source-type classification, the hybrid resolution chain and
the batch runner), with the network-dependent provider responses supplied as
explicit environment parameters, and prove/refute the specified properties.

Modelling conventions:
* A JavaScript value that may be `null`/`undefined` is modelled as `Option`.
* JavaScript object spread (`{...a, ...b}`) is modelled by `spreadRec`:
  a candidate field of type `Option (Option _)` distinguishes "key absent"
  (outer `none`, the input's value is kept) from "key present with a null /
  empty value" (outer `some`, which overwrites).
* JS string truthiness (`"" `, `null`, `undefined` are falsy) is `jsTruthyS`.
* Character classes `[a-z]`, `[0-9]`, `\s`, `\w` are modelled with the ASCII
  predicates `Char.isLower`, `Char.isDigit`, `Char.isWhitespace`,
  `isWordChar`; the inputs of interest are ASCII.
-/

set_option autoImplicit false

namespace NLZ

/-! ### Generic JS-style string helpers -/

/-- JS truthiness of a possibly-null/undefined string: `null`, `undefined`
and `""` are falsy. -/
def jsTruthyS (o : Option String) : Bool :=
  match o with
  | none => false
  | some s => !(s = "")

/-- JS truthiness of a possibly-null/undefined number (0 is falsy). -/
def jsTruthyI (o : Option Int) : Bool :=
  match o with
  | none => false
  | some i => !(i = 0)

/-- JS `a || b` on nullable strings. -/
def jsOrS (a b : Option String) : Option String :=
  if jsTruthyS a then a else b

/-- JS `a || dflt` where `dflt` is a plain string (e.g. `x || ''`). -/
def jsStrOr (a : Option String) (dflt : String) : String :=
  if jsTruthyS a then a.getD "" else dflt

/-- JS `a || b` on nullable numbers. -/
def jsOrI (a b : Option Int) : Option Int :=
  if jsTruthyI a then a else b

/-- JS `x >= q` where `x` may be `undefined` (`undefined >= q` is false). -/
def jsGeQ (o : Option ℚ) (q : ℚ) : Bool :=
  match o with
  | none => false
  | some c => decide (q ≤ c)

/-- Drop whitespace from both ends of a character list (models JS
`String.prototype.trim`). -/
def trimWsL (l : List Char) : List Char :=
  ((l.dropWhile Char.isWhitespace).reverse.dropWhile Char.isWhitespace).reverse

/-- JS `s.trim()`. -/
def jsTrim (s : String) : String :=
  String.mk (trimWsL s.toList)

/-- Characters kept by the normalization `replace(/[^a-z0-9\s]/g, '')`
(applied after `toLowerCase()`). -/
def keepChar (c : Char) : Bool :=
  c.isLower || c.isDigit || c.isWhitespace

/-- The title normalization of `calculateTitleSimilarity`
(enrichment.js line 691): `toLowerCase().replace(/[^a-z0-9\s]/g, '').trim()`. -/
def jsClean (s : String) : String :=
  jsTrim (String.mk ((s.toList.map Char.toLower).filter keepChar))

/-- Maximal non-whitespace runs of a character list, as strings.
The accumulator holds the current token reversed. -/
def wsTokensGo (acc : List Char) : List Char → List String
  | [] => if acc.isEmpty then [] else [String.mk acc.reverse]
  | c :: t =>
    if c.isWhitespace then
      if acc.isEmpty then wsTokensGo [] t
      else String.mk acc.reverse :: wsTokensGo [] t
    else wsTokensGo (c :: acc) t

/-- JS `s.split(/\s+/)` as used in `calculateTitleSimilarity`: the argument is
always a trimmed string there, so the result is the list of whitespace-delimited
tokens, except that JS returns `[""]` for the empty string. -/
def jsSplitWs (s : String) : List String :=
  if s = "" then [""] else wsTokensGo [] s.toList

/-- Substring test: `needle` occurs contiguously in `hay`
(models JS `hay.includes(needle)`; the empty needle always matches). -/
def strIncludesL (needle : List Char) : List Char → Bool
  | [] => needle.isPrefixOf []
  | c :: t => needle.isPrefixOf (c :: t) || strIncludesL needle t

/-- JS `hay.includes(needle)` on strings. -/
def strIncludes (hay needle : String) : Bool :=
  strIncludesL needle.toList hay.toList

/-- JS `Math.min(a, b)` on rationals (kernel-reducible, unlike `min`). -/
def mathMin (a b : ℚ) : ℚ :=
  if a ≤ b then a else b

/-! ### Similarity scorer (enrichment.js `calculateTitleSimilarity`, 690-710) -/

/-- Shallow embedding of `calculateTitleSimilarity`: normalize both titles,
return 1 on exact match, otherwise Jaccard similarity of the token sets plus a
0.2 substring bonus, clamped to 1. -/
def calculateTitleSimilarity (title1 title2 : String) : ℚ :=
  let clean1 := jsClean title1
  let clean2 := jsClean title2
  if clean1 = clean2 then 1
  else
    let words1 := (jsSplitWs clean1).toFinset
    let words2 := (jsSplitWs clean2).toFinset
    let jaccard : ℚ := ((words1 ∩ words2).card : ℚ) / ((words1 ∪ words2).card : ℚ)
    let substring : ℚ := if strIncludes clean1 clean2 || strIncludes clean2 clean1 then 1/5 else 0
    mathMin 1 (jaccard + substring)

/-- Collapse each whitespace run to a single space (used only by the
spec-worded variant below; the source function never collapses). -/
def collapseWsGo (prevWs : Bool) : List Char → List Char
  | [] => []
  | c :: t =>
    if c.isWhitespace then
      if prevWs then collapseWsGo true t else ' ' :: collapseWsGo true t
    else c :: collapseWsGo false t

/-- Modelled from the spec wording of the scorer's normalization:
"lowercase, strip all characters outside letters/digits/whitespace,
collapse whitespace, trim". -/
def specNormalize (s : String) : String :=
  String.mk (trimWsL (collapseWsGo false ((s.toList.map Char.toLower).filter keepChar)))

/-- Modelled from the spec wording of the whole scorer (with the claimed
whitespace-collapsing normalization), for comparison with the source
function. -/
def titleSimilaritySpec (title1 title2 : String) : ℚ :=
  let n1 := specNormalize title1
  let n2 := specNormalize title2
  if n1 = n2 then 1
  else
    let words1 := (jsSplitWs n1).toFinset
    let words2 := (jsSplitWs n2).toFinset
    let jaccard : ℚ := ((words1 ∩ words2).card : ℚ) / ((words1 ∪ words2).card : ℚ)
    let substring : ℚ := if strIncludes n1 n2 || strIncludes n2 n1 then 1/5 else 0
    mathMin 1 (jaccard + substring)

/-! ### Record data model

A JS record object (input source or enriched result) with the fields the
enrichment core reads or writes.  `none` models a JS `null`/`undefined`/absent
value (these are indistinguishable to every *read* the core performs). -/

structure Rec where
  title : String
  url : Option String := none
  type : Option String := none
  date : Option String := none
  authors : Option (List String) := none
  doi : Option String := none
  journal : Option String := none
  volume : Option String := none
  issue : Option String := none
  pages : Option String := none
  year : Option Int := none
  abstract : Option String := none
  publisher : Option String := none
  issn : Option String := none
  confidence : Option ℚ := none
  enrichmentType : Option String := none
  enrichmentSource : Option String := none
  error : Option String := none
  hadDOI : Bool := false
  hadURL : Bool := false
  foundByTitle : Bool := false
deriving Repr, DecidableEq

/-- A provider candidate object, as built by one of the provider mapping
functions.  For each field the outer `Option` records whether the JS object
literal contains the key at all (`none` = key absent, so a spread keeps the
input's value); for fields whose written value can itself be `null`/empty the
inner layer carries that value. -/
structure Candidate where
  title : Option String := none
  url : Option (Option String) := none
  type : Option (Option String) := none
  date : Option String := none
  authors : Option (List String) := none
  doi : Option (Option String) := none
  journal : Option (Option String) := none
  volume : Option (Option String) := none
  issue : Option (Option String) := none
  pages : Option (Option String) := none
  year : Option (Option Int) := none
  abstract : Option (Option String) := none
  publisher : Option (Option String) := none
  issn : Option (Option String) := none
  confidence : Option ℚ := none
  enrichmentType : Option String := none
  enrichmentSource : Option String := none
deriving Repr, DecidableEq

/-- JS shallow spread `{...source, ...candidate}`: every key present in the
candidate object overwrites the input's field — even when the written value is
`null` or `""` — and every absent key keeps the input's field.  The candidate
objects built by the provider mappings never write `error` or the provenance
flags, so those always survive from the input. -/
def spreadRec (s : Rec) (c : Candidate) : Rec :=
  { title := c.title.getD s.title
    url := c.url.getD s.url
    type := c.type.getD s.type
    date := (c.date.map some).getD s.date
    authors := (c.authors.map some).getD s.authors
    doi := c.doi.getD s.doi
    journal := c.journal.getD s.journal
    volume := c.volume.getD s.volume
    issue := c.issue.getD s.issue
    pages := c.pages.getD s.pages
    year := c.year.getD s.year
    abstract := c.abstract.getD s.abstract
    publisher := c.publisher.getD s.publisher
    issn := c.issn.getD s.issn
    confidence := (c.confidence.map some).getD s.confidence
    enrichmentType := (c.enrichmentType.map some).getD s.enrichmentType
    enrichmentSource := (c.enrichmentSource.map some).getD s.enrichmentSource
    error := s.error
    hadDOI := s.hadDOI
    hadURL := s.hadURL
    foundByTitle := s.foundByTitle }

/-! ### CrossRef DOI resolution (metadata-extractor.js `getMetadataFromDOI`,
83-134, and `formatCrossRefDate`, 139-152) -/

/-- One entry of a CrossRef `work.author` array. -/
structure CRAuthor where
  given : Option String := none
  family : Option String := none
  name : Option String := none
deriving Repr, DecidableEq

/-- A CrossRef date object, i.e. the first entry of `date-parts`
(`[year, month, day]` with month/day optional). -/
structure CRDate where
  year : Int
  month : Option Int := none
  day : Option Int := none
deriving Repr, DecidableEq

/-- The fields of a CrossRef `work` payload that `getMetadataFromDOI` reads.
`title`/`containerTitle`/`issn` stand for `work.title?.[0]` etc.;
`published`/`created` stand for `work.published?.['date-parts']?.[0]`. -/
structure CrossRefWork where
  title : Option String := none
  author : Option (List CRAuthor) := none
  doi : Option String := none
  abstract : Option String := none
  published : Option CRDate := none
  created : Option CRDate := none
  containerTitle : Option String := none
  volume : Option String := none
  issue : Option String := none
  page : Option String := none
  publisher : Option String := none
  issn : Option String := none
  url : Option String := none
  type : Option String := none
deriving Repr, DecidableEq

/-- JS `String(month).padStart(2, '0')`. -/
def pad2 (n : Int) : String :=
  let s := toString n
  if s.length < 2 then "0" ++ s else s

/-- `formatCrossRefDate`: `''` when the date object or its `date-parts` are
missing, else `YYYY-MM-DD`, `YYYY-MM` or `YYYY` depending on which parts are
present (and truthy: a `0` month or day is falsy in JS). -/
def formatCrossRefDate (d : Option CRDate) : String :=
  match d with
  | none => ""
  | some dp =>
    if jsTruthyI dp.month && jsTruthyI dp.day then
      toString dp.year ++ "-" ++ pad2 (dp.month.getD 0) ++ "-" ++ pad2 (dp.day.getD 0)
    else if jsTruthyI dp.month then
      toString dp.year ++ "-" ++ pad2 (dp.month.getD 0)
    else toString dp.year

/-- Author display name: `given family` when both are truthy, otherwise
`a.family || a.name || ''`. -/
def mapAuthor (a : CRAuthor) : String :=
  if jsTruthyS a.given && jsTruthyS a.family then
    a.given.getD "" ++ " " ++ a.family.getD ""
  else jsStrOr a.family (jsStrOr a.name "")

/-- JS template interpolation of a possibly-undefined string
(`` `${x}` `` renders `undefined` as the string "undefined"). -/
def jsTemplateS (o : Option String) : String :=
  o.getD "undefined"

/-- The candidate object literal built by `getMetadataFromDOI` from a CrossRef
work: every key is written, with `''` (not key-absence) for most missing
fields, `confidence: 100` and `enrichmentSource: 'CrossRef (DOI)'`. -/
def mapCrossRefWork (w : CrossRefWork) : Candidate :=
  { title := some (jsStrOr w.title "")
    authors := some ((w.author.getD []).map mapAuthor)
    doi := some w.doi
    abstract := some (some (jsStrOr w.abstract ""))
    year := some (
      let y := jsOrI (w.published.map CRDate.year) (w.created.map CRDate.year)
      if jsTruthyI y then y else none)
    journal := some (some (jsStrOr w.containerTitle ""))
    volume := some (some (jsStrOr w.volume ""))
    issue := some (some (jsStrOr w.issue ""))
    pages := some (some (jsStrOr w.page ""))
    publisher := some (some (jsStrOr w.publisher ""))
    issn := some (some (jsStrOr w.issn ""))
    url := some (some (jsStrOr w.url ("https://doi.org/" ++ jsTemplateS w.doi)))
    type := some (some (jsStrOr w.type "journal-article"))
    confidence := some 100
    enrichmentSource := some "CrossRef (DOI)"
    date := some (formatCrossRefDate (w.published.orElse fun _ => w.created)) }

/-! ### CrossRef title search (metadata-extractor.js `findDOIByTitle`,
311-352) -/

/-- The first item of a CrossRef `query.title` search response
(`select=DOI,title,score`). -/
structure SearchHit where
  doi : Option String := none
  score : Option ℚ := none
deriving Repr, DecidableEq

/-- `findDOIByTitle`, abstracted over the provider response (`none` models a
failed fetch or an empty item list): reject when `firstResult.score || 0` is
below 30, otherwise return `firstResult.DOI`. -/
def findDOIByTitle (resp : Option SearchHit) : Option String :=
  match resp with
  | none => none
  | some hit => if hit.score.getD 0 < 30 then none else hit.doi

/-! ### DOI pattern matching (metadata-extractor.js `DOI_PATTERNS`,
`SOURCE_PATTERNS.doi`, `extractDOI` 33-67, `cleanDOI` 72-77)

The regexes are deterministic enough to model directly:
in `10\.\d{4,}\/[^\s]+` the greedy digit run must be maximal (the following
`/` is not a digit) and the final `[^\s]+` is the maximal non-whitespace run,
so no backtracking search is needed. -/

/-- JS `\w` (word character) for `\b` boundaries: `[A-Za-z0-9_]`. -/
def isWordChar (c : Char) : Bool :=
  c.isAlphanum || c = '_'

/-- Try to match `10\.\d{4,}\/[^\s]+` at the head of the list, returning the
matched characters. -/
def matchStdAt (l : List Char) : Option (List Char) :=
  match l with
  | '1' :: '0' :: '.' :: r =>
    let ds := r.takeWhile Char.isDigit
    if 4 ≤ ds.length then
      match r.dropWhile Char.isDigit with
      | '/' :: r2 =>
        let ns := r2.takeWhile (fun c => !c.isWhitespace)
        if ns.isEmpty then none
        else some ('1' :: '0' :: '.' :: (ds ++ '/' :: ns))
      | _ => none
    else none
  | _ => none

/-- First match of `\b(10\.\d{4,}\/[^\s]+)`: scan left to right, attempting
the pattern only at word-boundary positions (`bOK` records whether the
previous character was a non-word character or the start). -/
def firstStdGo (bOK : Bool) : List Char → Option String
  | [] => none
  | c :: t =>
    match (if bOK then matchStdAt (c :: t) else none) with
    | some m => some (String.mk m)
    | none => firstStdGo (!isWordChar c) t

/-- JS `s.match(DOI_PATTERNS.standard)?.[0]` (first full match of the
standard DOI pattern). -/
def firstStdMatch (s : String) : Option String :=
  firstStdGo true s.toList

/-- Word-boundary state after a successfully consumed match. -/
def boundaryAfter (m : List Char) (prev : Bool) : Bool :=
  match m.getLast? with
  | some c => !isWordChar c
  | none => prev

/-- All matches of the standard DOI pattern under the `/g` flag
(non-overlapping, left to right); `fuel` only bounds the recursion and is
always sufficient when set to the list length plus one. -/
def allStdGo : Nat → Bool → List Char → List String
  | 0, _, _ => []
  | _ + 1, _, [] => []
  | fuel + 1, bOK, c :: t =>
    match (if bOK then matchStdAt (c :: t) else none) with
    | some m => String.mk m :: allStdGo fuel (boundaryAfter m bOK) ((c :: t).drop m.length)
    | none => allStdGo fuel (!isWordChar c) t

/-- JS `s.match(DOI_PATTERNS.standard)` with `/g`: the list of full matches. -/
def allStdMatches (s : String) : List String :=
  allStdGo (s.toList.length + 1) true s.toList

/-- Drop a case-insensitive literal pattern from the head of the list. -/
def dropCI : List Char → List Char → Option (List Char)
  | [], l => some l
  | _ :: _, [] => none
  | p :: ps, c :: t => if c.toLower = p.toLower then dropCI ps t else none

/-- Try `doi\.org\/(10\.\d{4,}\/[^\s]+)` (case-insensitive) at the head;
returns the full match. -/
def matchDoiOrgAt (l : List Char) : Option (List Char) :=
  match dropCI "doi.org/".toList l with
  | some r =>
    match matchStdAt r with
    | some m => some (l.take 8 ++ m)
    | none => none
  | none => none

/-- Try `doi[:\s]+(10\.\d{4,}\/[^\s]+)` (case-insensitive) at the head;
returns the full match. -/
def matchEmbAt (l : List Char) : Option (List Char) :=
  match dropCI "doi".toList l with
  | some r =>
    let seps := r.takeWhile (fun c => c = ':' || c.isWhitespace)
    if seps.isEmpty then none
    else
      match matchStdAt (r.dropWhile (fun c => c = ':' || c.isWhitespace)) with
      | some m => some (l.take (3 + seps.length) ++ m)
      | none => none
  | none => none

/-- All matches of a boundary-free pattern under `/g` (non-overlapping,
left to right). -/
def allPatGo (matchAt : List Char → Option (List Char)) : Nat → List Char → List String
  | 0, _ => []
  | _ + 1, [] => []
  | fuel + 1, c :: t =>
    match matchAt (c :: t) with
    | some m => String.mk m :: allPatGo matchAt fuel ((c :: t).drop m.length)
    | none => allPatGo matchAt fuel t

/-- JS `s.match(DOI_PATTERNS.url)` with `/g`: list of full matches. -/
def allDoiOrgMatches (s : String) : List String :=
  allPatGo matchDoiOrgAt (s.toList.length + 1) s.toList

/-- JS `s.match(DOI_PATTERNS.embedded)` with `/g`: list of full matches. -/
def allEmbMatches (s : String) : List String :=
  allPatGo matchEmbAt (s.toList.length + 1) s.toList

/-- First match of `SOURCE_PATTERNS.doi` = `doi\.org\/(10\.\d{4,}\/[^\s]+)/i`
(no `/g`, so `match[1]` is the capture group: the part after `doi.org/`). -/
def firstDoiOrgCapture : List Char → Option String
  | [] => none
  | c :: t =>
    match dropCI "doi.org/".toList (c :: t) with
    | some r =>
      match matchStdAt r with
      | some m => some (String.mk m)
      | none => firstDoiOrgCapture t
    | none => firstDoiOrgCapture t

/-- Strip a leading `doi:?\s*` marker (case-insensitive), as
`replace(/^doi:?\s*/i, '')`. -/
def stripDoiMarker (l : List Char) : List Char :=
  match l with
  | d :: o :: i :: rest =>
    if d.toLower = 'd' && o.toLower = 'o' && i.toLower = 'i' then
      (match rest with
       | ':' :: r => r
       | _ => rest).dropWhile Char.isWhitespace
    else l
  | _ => l

/-- Strip a leading `https?:\/\/(dx\.)?doi\.org\/` resolver prefix
(case-insensitive), as `replace(/^https?:\/\/(?:dx\.)?doi\.org\//i, '')`. -/
def stripResolver (l : List Char) : List Char :=
  match dropCI "http".toList l with
  | none => l
  | some r1 =>
    let r2 := (dropCI "s".toList r1).getD r1
    match dropCI "://".toList r2 with
    | none => l
    | some r3 =>
      let r4 := (dropCI "dx.".toList r3).getD r3
      match dropCI "doi.org/".toList r4 with
      | none => l
      | some r5 => r5

/-- `cleanDOI` (metadata-extractor.js 72-77): strip a leading `doi:` marker,
then a resolver-URL prefix, then trim whitespace.  Nothing else — in
particular no trailing punctuation or extension is removed. -/
def cleanDOI (doi : String) : String :=
  jsTrim (String.mk (stripResolver (stripDoiMarker doi.toList)))

/-- The title branch of `extractDOI`: iterate `DOI_PATTERNS` in insertion
order (standard, url, embedded).  All three regexes carry `/g`, so
`title.match(p)` is the list of full matches; the code takes `match[0]` for
the standard pattern but `match[1]` — the *second full match* — for the other
two.  Result: outer `none` = no pattern matched, inner value = the argument
passed to `cleanDOI` (which is JS-`undefined` when `match[1]` does not
exist). -/
def titlePatternDOI (t : String) : Option (Option String) :=
  match allStdMatches t with
  | m :: _ => some (some m)
  | [] =>
    match allDoiOrgMatches t with
    | [] =>
      match allEmbMatches t with
      | [] => none
      | ms => some (ms.get? 1)
    | ms => some (ms.get? 1)

/-- The URL branch of `extractDOI`: first `SOURCE_PATTERNS.doi` (capture
group), then the standard pattern (first full match). -/
def extractDOIFromUrl (s : Rec) : Option String :=
  if jsTruthyS s.url then
    let u := s.url.getD ""
    match firstDoiOrgCapture u.toList with
    | some d => some (cleanDOI d)
    | none =>
      match firstStdMatch u with
      | some d => some (cleanDOI d)
      | none => none
  else none

/-- `extractDOI` (metadata-extractor.js 33-67).  When a title pattern matched
but the extracted value is `undefined` (a one-element `/g` result read at
index 1), the JS code calls `cleanDOI(undefined)` and throws a `TypeError`
into the caller's catch; that case is unreachable — every `doi.org/...` or
`doi: ...` match contains a standard-pattern match at its tail, so the
standard branch always wins first — and we model it as "no DOI". -/
def extractDOI (s : Rec) : Option String :=
  match (if s.title = "" then none else titlePatternDOI s.title) with
  | some od => od.map cleanDOI
  | none => extractDOIFromUrl s

/-! ### Hybrid resolution chain (metadata-extractor.js
`extractMetadataHybrid`, 358-394) and `enrichSource` (enrichment.js 125-159) -/

/-- The external provider boundary of the hybrid chain.  `works doi` is the
CrossRef `works/{doi}` lookup (`none` = network failure / non-ok status);
`urlMeta url` is the outcome of `getMetadataFromURL` (an already-mapped
provider candidate, or `none`); `search title` is the first item of the
CrossRef `query.title` search used by `findDOIByTitle`. -/
structure HybridEnv where
  works : String → Option CrossRefWork
  urlMeta : String → Option Candidate
  search : String → Option SearchHit

/-- `getMetadataFromDOI` over the environment: map the CrossRef work when the
lookup succeeds. -/
def getMetadataFromDOIM (env : HybridEnv) (doi : String) : Option Candidate :=
  (env.works doi).map mapCrossRefWork

/-- Step 3 of `extractMetadataHybrid`: find a DOI by title search and, if one
is returned (and truthy), resolve it by `getMetadataFromDOI` — with no
further threshold on the resolved metadata. -/
def hybridStep3 (env : HybridEnv) (s : Rec) : Option Rec :=
  match findDOIByTitle (env.search s.title) with
  | some doi =>
    if doi = "" then none
    else
      match getMetadataFromDOIM env doi with
      | some md => some { spreadRec s md with hadDOI := true, foundByTitle := true }
      | none => none
  | none => none

/-- Step 2 of `extractMetadataHybrid`: URL-based extraction when the record
has a truthy URL, falling through to step 3. -/
def hybridStep2 (env : HybridEnv) (s : Rec) : Option Rec :=
  if jsTruthyS s.url then
    match env.urlMeta (s.url.getD "") with
    | some md => some { spreadRec s md with hadURL := true }
    | none => hybridStep3 env s
  else hybridStep3 env s

/-- `extractMetadataHybrid`: DOI-in-source first (accepted unconditionally
when the CrossRef lookup succeeds), then URL, then DOI-by-title-search;
`none` triggers the caller's fallback. -/
def extractMetadataHybrid (env : HybridEnv) (s : Rec) : Option Rec :=
  match extractDOI s with
  | some doi =>
    if doi = "" then hybridStep2 env s
    else
      match getMetadataFromDOIM env doi with
      | some md => some { spreadRec s md with hadDOI := true }
      | none => hybridStep2 env s
  | none => hybridStep2 env s

/-! ### Source-type classification (enrichment.js `detectSourceType`,
164-194) -/

/-- JS `toLowerCase()` (ASCII model). -/
def jsToLower (s : String) : String :=
  String.mk (s.toList.map Char.toLower)

/-- Four consecutive digits occur somewhere (JS `/\d{4}/.test`). -/
def hasFourConsecDigits : List Char → Bool
  | a :: b :: c :: d :: rest =>
    (a.isDigit && b.isDigit && c.isDigit && d.isDigit) ||
      hasFourConsecDigits (b :: c :: d :: rest)
  | _ => false

/-- JS `title.match(/\.(pdf|docx?)$/i)` on an already-lowercased title. -/
def endsWithDocExt (t : String) : Bool :=
  (".pdf".toList.isSuffixOf t.toList) || (".doc".toList.isSuffixOf t.toList) ||
    (".docx".toList.isSuffixOf t.toList)

/-- `detectSourceType`: keyword/structure classification into
youtube / arxiv / academic / web / unknown. -/
def detectSourceType (s : Rec) : String :=
  let title := jsToLower s.title
  let url := jsToLower (if jsTruthyS s.url then s.url.getD "" else "")
  if strIncludes title "youtube" || strIncludes url "youtube.com" ||
      strIncludes url "youtu.be" then "youtube"
  else if strIncludes title "arxiv" || strIncludes url "arxiv.org" then "arxiv"
  else if s.type = some "pdf" || endsWithDocExt title ||
      hasFourConsecDigits title.toList || strIncludes title "et al" ||
      strIncludes title "journal" || strIncludes title "conference" then "academic"
  else if url ≠ "" || 20 < title.length then "web"
  else "unknown"

/-- The four legacy per-type enrichment routines (`enrichAcademic`,
`enrichArxiv`, `enrichWeb`, `enrichYoutube`), which perform network I/O, as
an abstract parameter of the model. -/
structure OrigEnrichers where
  academic : Rec → Rec
  arxivFn : Rec → Rec
  webFn : Rec → Rec
  youtubeFn : Rec → Rec

/-- The `switch (type)` dispatch at the end of `enrichSource` (the original,
pre-hybrid logic). -/
def origDispatch (orig : OrigEnrichers) (s : Rec) : Rec :=
  match detectSourceType s with
  | "academic" => orig.academic s
  | "arxiv" => orig.arxivFn s
  | "web" => orig.webFn s
  | "youtube" => orig.youtubeFn s
  | _ => { s with confidence := some 0, enrichmentType := some "none" }

/-- `enrichSource` (enrichment.js 125-159): try the hybrid extraction first
and accept its result only when `confidence >= 90`; otherwise (hybrid miss,
low confidence, or a hybrid exception, all modelled by the fall-through) use
the original type-classified logic. -/
def enrichSource (env : HybridEnv) (orig : OrigEnrichers) (s : Rec) : Rec :=
  match extractMetadataHybrid env s with
  | some m => if jsGeQ m.confidence 90 then m else origDispatch orig s
  | none => origDispatch orig s

/-! ### Batch runner (enrichment.js `enrichSources`, 31-120) -/

/-- Per-record outcome of the batch runner.  `semi` models the tally the
source calls "partial" (some but not full metadata). -/
inductive Outcome
  | success
  | semi
  | failed
deriving Repr, DecidableEq

/-- The `results` tallies object. -/
structure Tally where
  nSuccess : Nat := 0
  nSemi : Nat := 0
  nFailed : Nat := 0
deriving Repr, DecidableEq

/-- `enrichedSource.authors?.length > 0` (false when `authors` is
null/undefined). -/
def hasAuthorsB (r : Rec) : Bool :=
  match r.authors with
  | none => false
  | some l => decide (0 < l.length)

/-- `hasFullMetadata` (enrichment.js 55-56): at least one author AND a truthy
doi, abstract or journal. -/
def hasFullMetadata (r : Rec) : Bool :=
  hasAuthorsB r && (jsTruthyS r.doi || jsTruthyS r.abstract || jsTruthyS r.journal)

/-- `hasPartialMetadata` (enrichment.js 57-59): an author OR a truthy doi OR
a truthy abstract. -/
def hasSomeMetadata (r : Rec) : Bool :=
  hasAuthorsB r || jsTruthyS r.doi || jsTruthyS r.abstract

/-- The `if/else if/else` outcome classification of the batch loop. -/
def classify (r : Rec) : Outcome :=
  if hasFullMetadata r then Outcome.success
  else if hasSomeMetadata r then Outcome.semi
  else Outcome.failed

/-- Increment the tally for an outcome. -/
def bump (t : Tally) : Outcome → Tally
  | Outcome.success => { t with nSuccess := t.nSuccess + 1 }
  | Outcome.semi => { t with nSemi := t.nSemi + 1 }
  | Outcome.failed => { t with nFailed := t.nFailed + 1 }

/-- One iteration of the batch loop over a record: the per-record enrichment
`f` (which may throw, modelled by `Except`) runs inside `try`; on success the
result is classified, on an exception the catch block emits
`{...source, confidence: 0, error: error.message}` and counts it failed. -/
def stepRecord (f : Rec → Except String Rec) (s : Rec) : Rec × Outcome :=
  match f s with
  | Except.ok e => (e, classify e)
  | Except.error msg => ({ s with confidence := some 0, error := some msg }, Outcome.failed)

/-- The batch loop: push each processed record and bump the matching tally.
The accumulator holds the `enriched` array in reverse. -/
def enrichSourcesGo (f : Rec → Except String Rec) : List Rec → List Rec → Tally → List Rec × Tally
  | [], acc, t => (acc.reverse, t)
  | s :: rest, acc, t =>
    enrichSourcesGo f rest ((stepRecord f s).1 :: acc) (bump t (stepRecord f s).2)

/-- `enrichSources`, abstracted over the per-record enrichment `f` (the
progress callback performs no computation relevant to the result and is
omitted; the inter-record sleep is timing only). -/
def enrichSources (f : Rec → Except String Rec) (sources : List Rec) : List Rec × Tally :=
  enrichSourcesGo f sources [] {}

/-- Occurrence count of an outcome in a list. -/
def countO (o : Outcome) : List Outcome → Nat
  | [] => 0
  | x :: t => (if x = o then 1 else 0) + countO o t

/-! ### Filename parsing (enrichment.js `parseFilenameMetadata`, 243-283) -/

/-- Result of the filename parser. -/
structure ParsedMeta where
  author : Option String := none
  year : Option Nat := none
deriving Repr, DecidableEq

/-- Read exactly four digits from the head as a year (`parseInt(match)`;
the regexes use `(\d{4})`). -/
def fourDigits (l : List Char) : Option Nat :=
  match l with
  | a :: b :: c :: d :: _ =>
    if a.isDigit && b.isDigit && c.isDigit && d.isDigit then
      some (((a.toNat - 48) * 10 + (b.toNat - 48)) * 100 + ((c.toNat - 48) * 10 + (d.toNat - 48)))
    else none
  | _ => none

/-- Read exactly four digits and also return the rest of the list. -/
def fourDigitsSplit (l : List Char) : Option (Nat × List Char) :=
  match l with
  | a :: b :: c :: d :: r =>
    if a.isDigit && b.isDigit && c.isDigit && d.isDigit then
      some (((a.toNat - 48) * 10 + (b.toNat - 48)) * 100 + ((c.toNat - 48) * 10 + (d.toNat - 48)), r)
    else none
  | _ => none

/-- Match `\s+` at the head (at least one whitespace character), returning
the rest after the maximal whitespace run. -/
def dropWs1 (l : List Char) : Option (List Char) :=
  match l with
  | c :: t => if c.isWhitespace then some (t.dropWhile Char.isWhitespace) else none
  | [] => none

/-- Match `\s*[-–—]\s*(\d{4})` at the head (pattern 1 and pattern 3 tails). -/
def dashYear (l : List Char) : Option Nat :=
  match l.dropWhile Char.isWhitespace with
  | d :: r => if d = '-' || d = '–' || d = '—' then fourDigits (r.dropWhile Char.isWhitespace) else none
  | [] => none

/-- Match `\s+et\s+al\.?\s*[-–—]\s*(\d{4})` at the head, case-insensitively
(the `/i` flag of pattern 1), returning the year. -/
def etAlTail (l : List Char) : Option Nat :=
  match dropWs1 l with
  | some r1 =>
    match r1 with
    | e :: t :: r2 =>
      if e.toLower = 'e' && t.toLower = 't' then
        match dropWs1 r2 with
        | some r3 =>
          match r3 with
          | a :: lc :: r4 =>
            if a.toLower = 'a' && lc.toLower = 'l' then
              dashYear (match r4 with
                        | '.' :: r5 => r5
                        | _ => r4)
            else none
          | _ => none
        | none => none
      else none
    | _ => none
  | none => none

/-- Pattern 1, `^([^-]+?)\s+et\s+al\.?\s*[-–—]\s*(\d{4})/i`: the lazy group
scans left to right for the shortest dash-free prefix whose continuation
matches the `et al` tail.  `acc` is the group read so far, reversed. -/
def p1Go (acc : List Char) : List Char → Option (String × Nat)
  | [] => none
  | c :: t =>
    if c = '-' then none
    else
      match etAlTail t with
      | some y => some (jsTrim (String.mk (c :: acc).reverse), y)
      | none => p1Go (c :: acc) t

/-- Pattern 1 entry point. -/
def p1 (l : List Char) : Option (String × Nat) :=
  p1Go [] l

/-- Match `\s+(&|and)\s+` at the head (the separator removed by
`replace(/\s+(&|and)\s+.*/, '')`). -/
def andSepAt (l : List Char) : Bool :=
  match dropWs1 l with
  | some r =>
    match r with
    | '&' :: r2 => (dropWs1 r2).isSome
    | 'a' :: 'n' :: 'd' :: r2 => (dropWs1 r2).isSome
    | _ => false
  | none => false

/-- `group.replace(/\s+(&|and)\s+.*/, '')`: cut at the leftmost `\s+(&|and)\s+`
separator. -/
def cutAndGo (acc : List Char) : List Char → List Char
  | [] => acc.reverse
  | c :: t => if andSepAt (c :: t) then acc.reverse else cutAndGo (c :: acc) t

/-- The lazy group of pattern 2 as a function of the prefix before the first
`(`: the shortest nonempty prefix whose remainder (within that prefix) is all
whitespace, i.e. the prefix without its trailing whitespace — except that a
fully-whitespace prefix yields its first character. -/
def p2Group (pre : List Char) : List Char :=
  if pre.all Char.isWhitespace then pre.take 1
  else (pre.reverse.dropWhile Char.isWhitespace).reverse

/-- Pattern 2, `^([^(]+?)\s*\((\d{4})\)`: group before the first `(`, a
four-digit year in parentheses; the author keeps only the part before an
`&`/`and` separator, trimmed. -/
def p2 (l : List Char) : Option (String × Nat) :=
  let pre := l.takeWhile (fun c => c ≠ '(')
  if pre.isEmpty then none
  else
    match l.drop pre.length with
    | '(' :: rest =>
      match fourDigitsSplit rest with
      | some (y, r2) =>
        match r2 with
        | ')' :: _ => some (jsTrim (String.mk (cutAndGo [] (p2Group pre))), y)
        | _ => none
      | none => none
    | _ => none

/-- Pattern 3, `^([A-Z][a-z]+(?:-[A-Z][a-z]+)?)\s*[-–—]\s*(\d{4})`: a
capitalized surname, optionally hyphen-double-barrelled (the optional part is
preferred, with backtracking to the shorter group when its tail fails). -/
def p3 (l : List Char) : Option (String × Nat) :=
  match l with
  | [] => none
  | c :: rest =>
    if c.isUpper then
      let ls := rest.takeWhile Char.isLower
      let r1 := rest.dropWhile Char.isLower
      if ls.isEmpty then none
      else
        match r1 with
        | '-' :: c2 :: r2 =>
          if c2.isUpper then
            let ls2 := r2.takeWhile Char.isLower
            let r3 := r2.dropWhile Char.isLower
            if ls2.isEmpty then
              (dashYear r1).map fun y => (jsTrim (String.mk (c :: ls)), y)
            else
              match dashYear r3 with
              | some y => some (jsTrim (String.mk (c :: ls ++ '-' :: c2 :: ls2)), y)
              | none => (dashYear r1).map fun y => (jsTrim (String.mk (c :: ls)), y)
          else (dashYear r1).map fun y => (jsTrim (String.mk (c :: ls)), y)
        | _ => (dashYear r1).map fun y => (jsTrim (String.mk (c :: ls)), y)
    else none

/-- Match the optional `(?:\s+[A-Z][a-z]+)?` second word of pattern 4,
returning the consumed characters and the rest. -/
def optSecondWord (l : List Char) : Option (List Char × List Char) :=
  let ws := l.takeWhile Char.isWhitespace
  if ws.isEmpty then none
  else
    match l.dropWhile Char.isWhitespace with
    | u :: r =>
      if u.isUpper then
        let ls2 := r.takeWhile Char.isLower
        if ls2.isEmpty then none
        else some (ws ++ u :: ls2, r.dropWhile Char.isLower)
      else none
    | [] => none

/-- Match `\s*(\d{4})\s+` at the head (pattern 4 tail: the year must be
followed by at least one whitespace character). -/
def yearThenWs (l : List Char) : Option Nat :=
  match fourDigitsSplit (l.dropWhile Char.isWhitespace) with
  | some (y, rest) =>
    match rest with
    | w :: _ => if w.isWhitespace then some y else none
    | [] => none
  | none => none

/-- Pattern 4, `^([A-Z][a-z]+(?:\s+[A-Z][a-z]+)?)\s*(\d{4})\s+`: one or two
capitalized words directly followed by a year and whitespace (the optional
second word is preferred, with backtracking). -/
def p4 (l : List Char) : Option (String × Nat) :=
  match l with
  | [] => none
  | c :: rest =>
    if c.isUpper then
      let ls := rest.takeWhile Char.isLower
      let r1 := rest.dropWhile Char.isLower
      if ls.isEmpty then none
      else
        match optSecondWord r1 with
        | some (w2, r2) =>
          match yearThenWs r2 with
          | some y => some (jsTrim (String.mk (c :: ls ++ w2)), y)
          | none => (yearThenWs r1).map fun y => (jsTrim (String.mk (c :: ls)), y)
        | none => (yearThenWs r1).map fun y => (jsTrim (String.mk (c :: ls)), y)
    else none

/-- `parseFilenameMetadata`: try the four patterns in order, first match
wins, else `{author: null, year: null}`. -/
def parseFilenameMetadata (title : String) : ParsedMeta :=
  match p1 title.toList with
  | some (a, y) => { author := some a, year := some y }
  | none =>
    match p2 title.toList with
    | some (a, y) => { author := some a, year := some y }
    | none =>
      match p3 title.toList with
      | some (a, y) => { author := some a, year := some y }
      | none =>
        match p4 title.toList with
        | some (a, y) => { author := some a, year := some y }
        | none => { author := none, year := none }

/-! ### Concrete stub environments used to instantiate the theorems -/

/-- Identity legacy enrichers (the legacy chain is never reached in the runs
below, or its result is compared abstractly). -/
def cOrig : OrigEnrichers :=
  { academic := id, arxivFn := id, webFn := id, youtubeFn := id }

/-- A CrossRef work that resolves `10.1234/abcd` but defines almost nothing:
no title, no authors, no container-title, no dates. -/
def cWork1 : CrossRefWork :=
  { doi := some "10.1234/abcd" }

/-- Environment for the merge counterexample: only the `works` lookup of
`10.1234/abcd` succeeds. -/
def cEnv1 : HybridEnv :=
  { works := fun d => if d = "10.1234/abcd" then some cWork1 else none
    urlMeta := fun _ => none
    search := fun _ => none }

/-- An input record whose title carries the DOI and which has its own
type and date. -/
def cSrc1 : Rec :=
  { title := "10.1234/abcd study.pdf", type := some "pdf", date := some "March 2020" }

/-- The stubbed CrossRef work for "Attention Is All You Need". -/
def attWork : CrossRefWork :=
  { title := some "Attention Is All You Need"
    doi := some "10.48550/arXiv.1706.03762"
    author := some [{ given := some "Ashish", family := some "Vaswani" }] }

/-- Environment for the identifier-by-title-search scenario: the title search
returns the DOI at provider-native relevance 85, and the DOI resolves. -/
def attEnv : HybridEnv :=
  { works := fun d => if d = "10.48550/arXiv.1706.03762" then some attWork else none
    urlMeta := fun _ => none
    search := fun t =>
      if t = "Attention Is All You Need" then
        some { doi := some "10.48550/arXiv.1706.03762", score := some 85 }
      else none }

/-- The input record of the identifier-by-title-search scenario (empty URL,
so the URL step is skipped as falsy). -/
def attSrc : Rec :=
  { title := "Attention Is All You Need", url := some "" }

/-- A URL-step candidate with confidence 50 (below the hybrid gate). -/
def candLow : Candidate :=
  { title := some "A Plain Web Title", confidence := some 50 }

/-- Environment whose only productive step is the low-confidence URL
extraction. -/
def envLow : HybridEnv :=
  { works := fun _ => none
    urlMeta := fun _ => some candLow
    search := fun _ => none }

/-- A record with a (DOI-free) URL, classified "web" by the type
classifier. -/
def srcLow : Rec :=
  { title := "Some Interesting Paper Title Here", url := some "http://x.example/p" }

/-- The hybrid result for `srcLow` in `envLow` (confidence 50, below 90). -/
def mLow : Rec :=
  { spreadRec srcLow candLow with hadURL := true }

/-- A per-record enrichment that always throws. -/
def throwingEnrich : Rec → Except String Rec :=
  fun _ => Except.error "network down"

/-- A minimal input record for the batch-runner witnesses. -/
def wSrc : Rec :=
  { title := "A paper" }

/-! ## Theorems -/

/-! ### Similarity scorer properties (claims C4, C5) -/

/-- `mathMin` is the lattice `min` on ℚ. -/
theorem mathMin_eq_min (a b : ℚ) : mathMin a b = min a b := by
  rw [mathMin, min_def]

/-- Reflexivity of the scorer. -/
theorem sim_self (a : String) : calculateTitleSimilarity a a = 1 := by
  simp [calculateTitleSimilarity]

/-- Symmetry of the scorer. -/
theorem sim_comm (a b : String) :
    calculateTitleSimilarity a b = calculateTitleSimilarity b a := by
  simp only [calculateTitleSimilarity]
  by_cases h : jsClean a = jsClean b
  · rw [if_pos h, if_pos h.symm]
  · have h2 : ¬(jsClean b = jsClean a) := fun hh => h hh.symm
    rw [if_neg h, if_neg h2, Finset.inter_comm, Finset.union_comm, Bool.or_comm]

/-- The scorer is nonnegative. -/
theorem sim_nonneg (a b : String) : 0 ≤ calculateTitleSimilarity a b := by
  simp only [calculateTitleSimilarity]
  split
  · norm_num
  · rw [mathMin_eq_min]
    refine le_min (by norm_num) (add_nonneg (by positivity) ?bonus)
    split <;> norm_num

/-- The scorer is at most one. -/
theorem sim_le_one (a b : String) : calculateTitleSimilarity a b ≤ 1 := by
  simp only [calculateTitleSimilarity]
  split
  · norm_num
  · rw [mathMin_eq_min]
    exact min_le_left _ _

/-- C4: for all strings `a` and `b`, `calculateTitleSimilarity` is reflexive
(`sim a a = 1`), symmetric (`sim a b = sim b a`), and its value always lies
in the closed interval [0, 1]. -/
theorem C4_similarity_algebra (a b : String) :
    calculateTitleSimilarity a a = 1
    ∧ calculateTitleSimilarity a b = calculateTitleSimilarity b a
    ∧ 0 ≤ calculateTitleSimilarity a b
    ∧ calculateTitleSimilarity a b ≤ 1 :=
  ⟨sim_self a, sim_comm a b, sim_nonneg a b, sim_le_one a b⟩

/-- C5 counterexample: the claim says the normalization collapses whitespace
before the equality/substring tests, but the source function does not; on
`("x  y z", "x y")` the source returns the bare Jaccard score 2/3 (the
double space defeats the substring test) while the claimed algorithm returns
2/3 + 1/5 = 13/15 (after collapsing, "x y" is a substring of "x y z"). -/
theorem C5_counterexample :
    calculateTitleSimilarity "x  y z" "x y" = 2/3
    ∧ titleSimilaritySpec "x  y z" "x y" = 13/15
    ∧ calculateTitleSimilarity "x  y z" "x y" ≠ titleSimilaritySpec "x  y z" "x y" := by
  have hcode : calculateTitleSimilarity "x  y z" "x y" = 2/3 := by
    have hne : (jsClean "x  y z" = jsClean "x y") = False := by
      simp only [eq_iff_iff, iff_false]; decide
    have hi : ((jsSplitWs (jsClean "x  y z")).toFinset ∩ (jsSplitWs (jsClean "x y")).toFinset).card = 2 := by decide
    have hu : ((jsSplitWs (jsClean "x  y z")).toFinset ∪ (jsSplitWs (jsClean "x y")).toFinset).card = 3 := by decide
    have hs : (strIncludes (jsClean "x  y z") (jsClean "x y") ||
        strIncludes (jsClean "x y") (jsClean "x  y z")) = false := by decide
    simp only [calculateTitleSimilarity, hne, if_false, hi, hu, hs, Bool.false_eq_true]
    norm_num [mathMin]
  have hspec : titleSimilaritySpec "x  y z" "x y" = 13/15 := by
    have hne : (specNormalize "x  y z" = specNormalize "x y") = False := by
      simp only [eq_iff_iff, iff_false]; decide
    have hi : ((jsSplitWs (specNormalize "x  y z")).toFinset ∩ (jsSplitWs (specNormalize "x y")).toFinset).card = 2 := by decide
    have hu : ((jsSplitWs (specNormalize "x  y z")).toFinset ∪ (jsSplitWs (specNormalize "x y")).toFinset).card = 3 := by decide
    have hs : (strIncludes (specNormalize "x  y z") (specNormalize "x y") ||
        strIncludes (specNormalize "x y") (specNormalize "x  y z")) = true := by decide
    simp only [titleSimilaritySpec, hne, if_false, hi, hu, hs, if_true]
    norm_num [mathMin]
  refine ⟨hcode, hspec, ?_⟩
  rw [hcode, hspec]; norm_num

/-- C5 (amended): the scorer normalizes with lowercase, character stripping
and trim only — it does *not* collapse internal whitespace — and then returns
1 on equality of the (uncollapsed) normalized strings, otherwise the Jaccard
similarity of the whitespace-delimited token sets plus a 0.2 bonus when one
uncollapsed normalized string is a substring of the other, clamped to 1. -/
theorem C5_similarity_formula (a b : String) :
    (jsClean a = jsClean b → calculateTitleSimilarity a b = 1)
    ∧ (jsClean a ≠ jsClean b →
        calculateTitleSimilarity a b =
          mathMin 1
            ((((jsSplitWs (jsClean a)).toFinset ∩ (jsSplitWs (jsClean b)).toFinset).card : ℚ) /
                (((jsSplitWs (jsClean a)).toFinset ∪ (jsSplitWs (jsClean b)).toFinset).card : ℚ) +
              if strIncludes (jsClean a) (jsClean b) || strIncludes (jsClean b) (jsClean a)
              then 1/5 else 0)) := by
  constructor
  · intro h
    simp [calculateTitleSimilarity, h]
  · intro h
    simp only [calculateTitleSimilarity]
    rw [if_neg h]

/-- Witness for C5: on `("deep learning", "deep")` the normalized strings
differ, and the formula evaluates to 1/2 + 1/5 = 7/10. -/
theorem C5_witness :
    jsClean "deep learning" ≠ jsClean "deep"
    ∧ calculateTitleSimilarity "deep learning" "deep" = 7/10 := by
  refine ⟨by decide, ((C5_similarity_formula "deep learning" "deep").2 (by decide)).trans ?_⟩
  have hi : ((jsSplitWs (jsClean "deep learning")).toFinset ∩ (jsSplitWs (jsClean "deep")).toFinset).card = 1 := by decide
  have hu : ((jsSplitWs (jsClean "deep learning")).toFinset ∪ (jsSplitWs (jsClean "deep")).toFinset).card = 2 := by decide
  have hs : (strIncludes (jsClean "deep learning") (jsClean "deep") ||
      strIncludes (jsClean "deep") (jsClean "deep learning")) = true := by decide
  rw [hi, hu, hs]
  norm_num [mathMin]

/-! ### Identifier extraction (claim C6) -/

/-- C6 counterexample: on the record with title
`Smith et al - 2024 - 10.1038/s41586-024-01234-5.pdf` the extractor returns
the DOI *with* the trailing `.pdf` — the greedy `[^\s]+` captures the
extension and `cleanDOI` does not remove it — so the claimed value
`10.1038/s41586-024-01234-5` is not returned. -/
theorem C6_counterexample :
    extractDOI { title := "Smith et al - 2024 - 10.1038/s41586-024-01234-5.pdf" } =
      some "10.1038/s41586-024-01234-5.pdf"
    ∧ extractDOI { title := "Smith et al - 2024 - 10.1038/s41586-024-01234-5.pdf" } ≠
      some "10.1038/s41586-024-01234-5" :=
  ⟨by decide, by decide⟩

/-- C6 (amended): on that record the extractor returns
`10.1038/s41586-024-01234-5.pdf`; normalization strips resolver-URL prefixes
and leading `doi:` markers and trims surrounding whitespace, but does *not*
trim trailing non-whitespace captured by the greedy pattern, so the `.pdf`
suffix stays part of the returned DOI. -/
theorem C6_extract_doi :
    extractDOI { title := "Smith et al - 2024 - 10.1038/s41586-024-01234-5.pdf" } =
      some "10.1038/s41586-024-01234-5.pdf"
    ∧ cleanDOI "doi:10.1038/xyz" = "10.1038/xyz"
    ∧ cleanDOI "DOI: 10.1038/xyz" = "10.1038/xyz"
    ∧ cleanDOI "https://dx.doi.org/10.1038/xyz" = "10.1038/xyz"
    ∧ cleanDOI "http://doi.org/10.1038/xyz" = "10.1038/xyz"
    ∧ cleanDOI " 10.1038/xyz " = "10.1038/xyz"
    ∧ cleanDOI "10.1038/abc.pdf" = "10.1038/abc.pdf" :=
  ⟨by decide, by decide, by decide, by decide, by decide, by decide, by decide⟩

/-! ### Filename parsing (claim C9) -/

/-- C9: the two specified filenames parse to (Jones, 2023) and (Smith, 2024),
and the parser is exactly the priority `orElse` chain of the four patterns
"Author et al - YYYY", "Author (YYYY)", "Author - YYYY", "Author YYYY" —
the first matching pattern wins. -/
theorem C9_filename_priority (t : String) :
    parseFilenameMetadata "Jones & Brown (2023) - Climate Models.pdf" =
      { author := some "Jones", year := some 2023 }
    ∧ parseFilenameMetadata "Smith et al - 2024 - Title.pdf" =
      { author := some "Smith", year := some 2024 }
    ∧ parseFilenameMetadata t =
        (match (((p1 t.toList).orElse fun _ => p2 t.toList).orElse fun _ =>
                  p3 t.toList).orElse fun _ => p4 t.toList with
         | some (a, y) => { author := some a, year := some y }
         | none => { author := none, year := none }) := by
  refine ⟨by decide, by decide, ?_⟩
  simp only [parseFilenameMetadata]
  cases h1 : p1 t.toList with
  | some v => cases v; simp [Option.orElse]
  | none =>
    cases h2 : p2 t.toList with
    | some v => cases v; simp [Option.orElse]
    | none =>
      cases h3 : p3 t.toList with
      | some v => cases v; simp [Option.orElse]
      | none =>
        cases h4 : p4 t.toList with
        | some v => cases v; simp [Option.orElse]
        | none => simp [Option.orElse]

/-! ### Batch runner (claims C2, C3, C7) -/

/-- Closed form of the batch loop: the output is the accumulator (reversed)
followed by the per-record results in input order, and each tally is the
start value plus the occurrence count of its outcome. -/
theorem enrichSourcesGo_eq (f : Rec → Except String Rec) :
    ∀ (l acc : List Rec) (t : Tally),
    enrichSourcesGo f l acc t =
      (acc.reverse ++ l.map fun s => (stepRecord f s).1,
       { nSuccess := t.nSuccess + countO Outcome.success (l.map fun s => (stepRecord f s).2)
         nSemi := t.nSemi + countO Outcome.semi (l.map fun s => (stepRecord f s).2)
         nFailed := t.nFailed + countO Outcome.failed (l.map fun s => (stepRecord f s).2) })
  | [], acc, t => by simp [enrichSourcesGo, countO]
  | s :: rest, acc, t => by
    rw [enrichSourcesGo, enrichSourcesGo_eq f rest]
    cases h : (stepRecord f s).2 <;>
      simp [h, bump, countO, Tally.mk.injEq, List.reverse_cons, List.append_assoc] <;>
      omega

/-- The three outcome counts partition any outcome list. -/
theorem countO_partition :
    ∀ ol : List Outcome,
    countO Outcome.success ol + countO Outcome.semi ol + countO Outcome.failed ol = ol.length
  | [] => rfl
  | o :: t => by
    have ih := countO_partition t
    cases o <;> simp [countO] <;> omega

/-- An outcome occurring in the list has a positive count. -/
theorem countO_pos_of_mem {o : Outcome} :
    ∀ {ol : List Outcome}, o ∈ ol → 0 < countO o ol
  | x :: t, h => by
    rcases List.mem_cons.mp h with h1 | h2
    · simp [countO, h1]
    · have := countO_pos_of_mem h2
      simp [countO]
      omega

/-- C2: for every per-record enrichment `f` (including throwing ones) and
every input list, the batch runner returns exactly one output record per
input record, in input order — the output is the map of the per-record step
over the input, hence has the same length. -/
theorem C2_batch_length_order (f : Rec → Except String Rec) (sources : List Rec) :
    (enrichSources f sources).1 = (sources.map fun s => (stepRecord f s).1)
    ∧ (enrichSources f sources).1.length = sources.length := by
  rw [enrichSources, enrichSourcesGo_eq]
  simp

/-- C3: the outcome classification is exactly: success iff at least one
author and a truthy doi/abstract/journal; partial ("semi") iff an author or a
truthy doi or abstract but not success; failed iff neither; and the three
tallies partition the batch (they sum to the input length). -/
theorem C3_outcome_classification (r : Rec) (f : Rec → Except String Rec) (sources : List Rec) :
    (classify r = Outcome.success ↔
      (hasAuthorsB r = true ∧
        (jsTruthyS r.doi || jsTruthyS r.abstract || jsTruthyS r.journal) = true))
    ∧ (classify r = Outcome.semi ↔
      ((hasAuthorsB r || jsTruthyS r.doi || jsTruthyS r.abstract) = true ∧
        ¬(hasAuthorsB r = true ∧
          (jsTruthyS r.doi || jsTruthyS r.abstract || jsTruthyS r.journal) = true)))
    ∧ (classify r = Outcome.failed ↔
      (¬(hasAuthorsB r = true ∧
          (jsTruthyS r.doi || jsTruthyS r.abstract || jsTruthyS r.journal) = true)
        ∧ ¬((hasAuthorsB r || jsTruthyS r.doi || jsTruthyS r.abstract) = true)))
    ∧ (enrichSources f sources).2.nSuccess + (enrichSources f sources).2.nSemi +
        (enrichSources f sources).2.nFailed = sources.length := by
  refine ⟨?success, ?semi, ?failed, ?partition⟩
  case partition =>
    rw [enrichSources, enrichSourcesGo_eq]
    have h := countO_partition (sources.map fun s => (stepRecord f s).2)
    simp at h ⊢
    omega
  all_goals
    rcases h1 : hasAuthorsB r <;> rcases h2 : jsTruthyS r.doi <;>
      rcases h3 : jsTruthyS r.abstract <;> rcases h4 : jsTruthyS r.journal <;>
      simp [classify, hasFullMetadata, hasSomeMetadata, h1, h2, h3, h4]

/-- C7: when the per-record enrichment throws on the `i`-th record, the batch
runner still emits a record at position `i` — the input record with
`confidence = 0` and the error message — classifies it failed, counts it in
the failed tally, and still emits one output per input (the loop continues;
the catch in `stepRecord` is total, so no exception leaves the runner). -/
theorem C7_error_isolation (f : Rec → Except String Rec) (ss : List Rec)
    (i : Nat) (msg : String) (hi : i < ss.length)
    (he : f (ss.get ⟨i, hi⟩) = Except.error msg) :
    ((enrichSources f ss).1)[i]? =
      some { ss.get ⟨i, hi⟩ with confidence := some 0, error := some msg }
    ∧ (enrichSources f ss).1.length = ss.length
    ∧ (stepRecord f (ss.get ⟨i, hi⟩)).2 = Outcome.failed
    ∧ (enrichSources f ss).2.nFailed =
        countO Outcome.failed (ss.map fun s => (stepRecord f s).2)
    ∧ 0 < (enrichSources f ss).2.nFailed := by
  have hstep : stepRecord f (ss.get ⟨i, hi⟩) =
      ({ ss.get ⟨i, hi⟩ with confidence := some 0, error := some msg }, Outcome.failed) := by
    rw [stepRecord, he]
  have hmap : (enrichSources f ss).1 = (ss.map fun s => (stepRecord f s).1) := by
    rw [enrichSources, enrichSourcesGo_eq]
    simp
  have htal : (enrichSources f ss).2.nFailed =
      countO Outcome.failed (ss.map fun s => (stepRecord f s).2) := by
    rw [enrichSources, enrichSourcesGo_eq]
    simp
  refine ⟨?out, ?len, ?oc, htal, ?pos⟩
  case out =>
    rw [hmap, List.getElem?_map, List.getElem?_eq_getElem hi]
    have h1 : (stepRecord f (ss.get ⟨i, hi⟩)).1 =
        { ss.get ⟨i, hi⟩ with confidence := some 0, error := some msg } := by
      rw [hstep]
    simpa using h1
  case len =>
    rw [hmap]
    simp
  case oc =>
    rw [hstep]
  case pos =>
    rw [htal]
    apply countO_pos_of_mem
    refine List.mem_map.mpr ⟨ss.get ⟨i, hi⟩, ?mem, ?val⟩
    · exact ss.get_mem i hi
    · rw [hstep]

/-- Witness for C7: a single-record batch whose enrichment throws
"network down" emits the input record with `confidence = 0` and the error
marker, keeps the batch length, and tallies one failure. -/
theorem C7_witness :
    ((enrichSources throwingEnrich [wSrc]).1)[0]? =
      some { wSrc with confidence := some 0, error := some "network down" }
    ∧ (enrichSources throwingEnrich [wSrc]).1.length = [wSrc].length
    ∧ 0 < (enrichSources throwingEnrich [wSrc]).2.nFailed := by
  have h := C7_error_isolation throwingEnrich [wSrc] 0 "network down" (by decide) (by rfl)
  exact ⟨h.1, h.2.1, h.2.2.2.2⟩

/-! ### Merge rule on acceptance (claim C1) -/

/-- C1 counterexample: `cSrc1` (type "pdf", date "March 2020", a DOI-bearing
title) resolved against a CrossRef work defining neither title, date nor
journal is accepted with confidence 100, yet the enriched record has its
`title` overwritten with `""` and its `date` overwritten with `""` — input
fields overwritten by empty values from the winning candidate. -/
theorem C1_counterexample :
    (enrichSource cEnv1 cOrig cSrc1).confidence = some 100
    ∧ cSrc1.date = some "March 2020"
    ∧ (enrichSource cEnv1 cOrig cSrc1).date = some ""
    ∧ cSrc1.title = "10.1234/abcd study.pdf"
    ∧ (enrichSource cEnv1 cOrig cSrc1).title = ""
    ∧ cSrc1.type = some "pdf"
    ∧ (enrichSource cEnv1 cOrig cSrc1).type = some "journal-article" :=
  ⟨by decide, by decide, by decide, by decide, by decide, by decide, by decide⟩

/-- C1 (amended): on hybrid DOI acceptance the enriched record is the input
shallow-overlaid with *every key the winning candidate object contains*,
including keys whose value is null or empty (those overwrite the input);
only keys the candidate object does not contain (here: `error`,
`enrichmentType`, the provenance flags) keep the input's values.  The DOI
candidate always carries the fixed confidence 100, so it always passes the
`>= 90` acceptance gate. -/
theorem C1_merge_rule (env : HybridEnv) (orig : OrigEnrichers) (s : Rec)
    (doi : String) (w : CrossRefWork)
    (hdoi : extractDOI s = some doi) (hne : doi ≠ "")
    (hw : env.works doi = some w) :
    enrichSource env orig s = { spreadRec s (mapCrossRefWork w) with hadDOI := true }
    ∧ (spreadRec s (mapCrossRefWork w)).date =
        some (formatCrossRefDate (w.published.orElse fun _ => w.created))
    ∧ (spreadRec s (mapCrossRefWork w)).journal = some (jsStrOr w.containerTitle "")
    ∧ (spreadRec s (mapCrossRefWork w)).title = jsStrOr w.title ""
    ∧ (spreadRec s (mapCrossRefWork w)).error = s.error
    ∧ (spreadRec s (mapCrossRefWork w)).enrichmentType = s.enrichmentType
    ∧ (mapCrossRefWork w).confidence = some 100 := by
  have hmerge : extractMetadataHybrid env s =
      some { spreadRec s (mapCrossRefWork w) with hadDOI := true } := by
    rw [extractMetadataHybrid, hdoi]
    simp [hne, getMetadataFromDOIM, hw]
  have hconf : ({ spreadRec s (mapCrossRefWork w) with hadDOI := true } : Rec).confidence =
      some 100 := by
    simp [spreadRec, mapCrossRefWork]
  refine ⟨?accept, by simp [spreadRec, mapCrossRefWork], by simp [spreadRec, mapCrossRefWork],
    by simp [spreadRec, mapCrossRefWork], by simp [spreadRec, mapCrossRefWork],
    by simp [spreadRec, mapCrossRefWork], by simp [mapCrossRefWork]⟩
  have hg : jsGeQ ({ spreadRec s (mapCrossRefWork w) with hadDOI := true } : Rec).confidence 90
      = true := by
    rw [hconf]
    decide
  rw [enrichSource, hmerge]
  simp [hg]

/-- Witness for C1 (amended): the merge rule instantiated at the concrete
environment of the counterexample. -/
theorem C1_witness :
    enrichSource cEnv1 cOrig cSrc1 =
      { spreadRec cSrc1 (mapCrossRefWork cWork1) with hadDOI := true }
    ∧ (spreadRec cSrc1 (mapCrossRefWork cWork1)).error = cSrc1.error
    ∧ (mapCrossRefWork cWork1).confidence = some 100 := by
  have h := C1_merge_rule cEnv1 cOrig cSrc1 "10.1234/abcd" cWork1
    (by decide) (by decide) (by decide)
  exact ⟨h.1, h.2.2.2.2.1, h.2.2.2.2.2.2⟩

/-! ### Identifier-by-title-search strategy (claim C8) -/

/-- C8: the title-search strategy accepts the returned DOI exactly when the
provider-native relevance score is at least 30; and in the end-to-end
scenario — a stubbed search provider returning DOI
`10.48550/arXiv.1706.03762` at relevance 85 for "Attention Is All You Need" —
the identifier resolution is then accepted unconditionally, giving an
enriched record with identifier-resolution provenance
(`CrossRef (DOI)`, `hadDOI`, `foundByTitle`) and the fixed confidence 100,
not a similarity-based value. -/
theorem C8_title_search_resolution (d : String) (q : ℚ) :
    (findDOIByTitle (some { doi := some d, score := some q }) = some d ↔ 30 ≤ q)
    ∧ (¬30 ≤ q → findDOIByTitle (some { doi := some d, score := some q }) = none)
    ∧ (enrichSource attEnv cOrig attSrc).confidence = some 100
    ∧ (enrichSource attEnv cOrig attSrc).enrichmentSource = some "CrossRef (DOI)"
    ∧ (enrichSource attEnv cOrig attSrc).hadDOI = true
    ∧ (enrichSource attEnv cOrig attSrc).foundByTitle = true := by
  refine ⟨?iff, ?rej, by decide, by decide, by decide, by decide⟩
  case iff =>
    simp only [findDOIByTitle, Option.getD]
    split_ifs with h
    · simp [not_le.mpr h]
    · simp [not_lt.mp h]
  case rej =>
    intro h
    simp only [findDOIByTitle, Option.getD]
    rw [if_pos (not_le.mp h)]

/-- Witness for C8: the acceptance side of the threshold iff at relevance
85. -/
theorem C8_witness :
    findDOIByTitle (some { doi := some "10.48550/arXiv.1706.03762", score := some 85 }) =
      some "10.48550/arXiv.1706.03762" :=
  (C8_title_search_resolution "10.48550/arXiv.1706.03762" 85).1.mpr (by norm_num)

/-! ### Hybrid acceptance gate in `enrichSource` (claim C10) -/

/-- C10: `enrichSource` accepts a hybrid extraction result exactly when its
confidence is at least 90 (on the 0-100 scale): an accepted result is
returned as-is, and a hybrid miss or a result below 90 falls through to the
type-classified original dispatch. -/
theorem C10_hybrid_gate (env : HybridEnv) (orig : OrigEnrichers) (s : Rec) :
    (extractMetadataHybrid env s = none → enrichSource env orig s = origDispatch orig s)
    ∧ (∀ m, extractMetadataHybrid env s = some m → jsGeQ m.confidence 90 = true →
        enrichSource env orig s = m)
    ∧ (∀ m, extractMetadataHybrid env s = some m → jsGeQ m.confidence 90 = false →
        enrichSource env orig s = origDispatch orig s) := by
  refine ⟨?miss, ?hi, ?lo⟩
  case miss =>
    intro h
    rw [enrichSource, h]
  case hi =>
    intro m hm hg
    rw [enrichSource, hm]
    simp [hg]
  case lo =>
    intro m hm hg
    rw [enrichSource, hm]
    simp [hg]

/-- Witness for C10: in `envLow` the hybrid chain produces a candidate with
confidence 50, which the gate rejects, so `enrichSource` falls through to
the original dispatch. -/
theorem C10_witness :
    extractMetadataHybrid envLow srcLow = some mLow
    ∧ jsGeQ mLow.confidence 90 = false
    ∧ enrichSource envLow cOrig srcLow = origDispatch cOrig srcLow :=
  ⟨by decide, by decide,
    (C10_hybrid_gate envLow cOrig srcLow).2.2 mLow (by decide) (by decide)⟩

end NLZ
